import Mathlib

/-!
Verification of the vxe-table validator module
(`src/packages/table/module/validator/hook.ts`).

The development shallowly embeds the validator hook's pure logic:

* a model `JVal` of the JavaScript values that flow through the
  rule evaluator (nulls, undefined, strings, integers, arrays);
* the built-in rule evaluator `validRuleValue` / `checkRuleStatus`;
* the synchronous part of the per-cell coordinator `validCellRules`
  (custom validators, registry lookup, error-rule accumulation);
* the dataset walker `handleVaild` from `beginValidate`, including the
  shared fail-fast flag `validRuleErr` and the skip rules for removed,
  pending and aggregate rows;
* the error-map store: `handleErrMsgMode`, `clearValidate`, the
  single-message replacement performed by `showValidTooltip`, and the
  end-of-session merge `reactData.validErrorMaps = handleErrMsgMode(...)`;
* the session resolution logic of `beginValidate` (callback versus
  rejection versus resolve-with-failure-map).

External helpers that are not part of the excerpt are modelled from the
spec and JavaScript semantics where they are forced on us:
`eqEmptyValue` (spec: "null/undefined/empty-string-equivalent"),
`getRowid` (rows are identified by their stable row id, so the model
keys rows by an id string directly), JavaScript's `Number(...)` and
string coercion (modelled for the value forms `JVal` contains).
-/

namespace VxeValidator

/-- Model of the JavaScript values handled by the rule evaluator:
`null`, `undefined`, strings, (integer) numbers and arrays. -/
inductive JVal where
  | vNull
  | vUndefined
  | vStr (s : String)
  | vNum (n : Int)
  | vArr (xs : List JVal)
  deriving Repr

/-- JavaScript string coercion `${val}` for the modelled value forms.
Array elements that are `null`/`undefined` stringify to the empty
string inside a joined array, as in JavaScript. -/
def jsToString : JVal → String
  | .vNull => "null"
  | .vUndefined => "undefined"
  | .vStr s => s
  | .vNum n => toString n
  | .vArr xs => String.intercalate "," (jsArrElems xs)
where
  /-- `String(...)` of each array element, commas between. -/
  jsArrElems : List JVal → List String
  | [] => []
  | .vNull :: rest => "" :: jsArrElems rest
  | .vUndefined :: rest => "" :: jsArrElems rest
  | v :: rest => jsToString v :: jsArrElems rest

/-- JavaScript whitespace for the purpose of `Number(...)` trimming. -/
def jsIsWhitespace (c : Char) : Bool :=
  c = ' ' ∨ c = '\t' ∨ c = '\n' ∨ c = '\r'

/-- Decimal value of a digit list (most significant first). -/
def jsDigitsToNat (cs : List Char) : Nat :=
  cs.foldl (fun acc c => acc * 10 + (c.toNat - '0'.toNat)) 0

/-- Parse of a string by JavaScript `Number(...)`, restricted to the
shapes the model produces: blank strings give `0`, optionally signed
digit strings give the integer, everything else is `NaN` (`none`). -/
def jsStrToNum (s : String) : Option Int :=
  let t := ((s.toList.dropWhile jsIsWhitespace).reverse.dropWhile jsIsWhitespace).reverse
  if t = [] then some 0
  else if t.all Char.isDigit then some (jsDigitsToNat t)
  else if t.headD ' ' = '-' ∧ t.tail ≠ [] ∧ t.tail.all Char.isDigit then
    some (-(jsDigitsToNat t.tail))
  else none

/-- JavaScript `Number(val)`; `none` is `NaN`.
`Number(null) = 0`, `Number(undefined) = NaN`, arrays coerce through
their string form. -/
def jsToNumber : JVal → Option Int
  | .vNull => some 0
  | .vUndefined => none
  | .vStr s => jsStrToNum s
  | .vNum n => some n
  | .vArr xs => jsStrToNum (jsToString (.vArr xs))

/-- Modelled from the spec: `eqEmptyValue` (imported by the hook from
`ui/src/utils`, not in the excerpt) — the semantic "empty value"
predicate, "null/undefined/empty-string-equivalent". -/
def eqEmptyValue : JVal → Bool
  | .vNull => true
  | .vUndefined => true
  | .vStr s => s = ""
  | _ => false

/-- Outcome of a synchronous custom validator call, after the hook's
normalisation: a falsy return, a truthy non-error non-thenable return
(both treated as pass), or an error-like return with a message. -/
inductive CustomResult where
  | falsy
  | truthy
  | errorLike (msg : String)
  deriving Repr, DecidableEq

/-- The `validator` attribute of a rule: a name looked up in the global
registry, or an inline function. -/
inductive RuleValidator where
  | named (name : String)
  | inline (f : JVal → CustomResult)

/-- The rule attributes used by the evaluator, mirroring the `Rule`
class / `VxeTableDefines.ValidatorRule` fields consumed by
`validRuleValue`, `checkRuleStatus` and `validCellRules`.  The regular
expression `pattern` is modelled as its test predicate on the coerced
string. -/
structure ValidatorRule where
  required : Bool := false
  min : Option Int := none
  max : Option Int := none
  type : Option String := none
  pattern : Option (String → Bool) := none
  trigger : Option String := none
  validator : Option RuleValidator := none
  content : String := ""

/-- `validREValue`: if a `pattern` exists, the coerced string must pass
its test. -/
def validREValue (pattern : Option (String → Bool)) (val : String) : Bool :=
  match pattern with
  | some p => p val
  | none => true

/-- `validMaxValue`: if `max` is non-null, the number must not exceed it. -/
def validMaxValue (max : Option Int) (num : Int) : Bool :=
  match max with
  | some m => ¬ num > m
  | none => true

/-- `validMinValue`: if `min` is non-null, the number must not be below it. -/
def validMinValue (min : Option Int) (num : Int) : Bool :=
  match min with
  | some m => ¬ num < m
  | none => true

/-- `validRuleValue(rule, val, required)`: the built-in constraint
evaluation — pattern first, then the type-directed branch (`array`,
`number`, default/string-like). -/
def validRuleValue (rule : ValidatorRule) (val : JVal) (required : Bool) : Bool :=
  let strVal := jsToString val
  if ¬ validREValue rule.pattern strVal then false
  else if rule.type = some "array" then
    match val with
    | .vArr xs =>
      if required ∧ xs.length = 0 then false
      else if ¬ validMinValue rule.min xs.length then false
      else if ¬ validMaxValue rule.max xs.length then false
      else true
    | _ => false
  else if rule.type = some "number" then
    match jsToNumber val with
    | none => false
    | some numVal =>
      if ¬ validMinValue rule.min numVal then false
      else if ¬ validMaxValue rule.max numVal then false
      else true
  else
    let isStringVal : Bool := match val with | .vStr _ => true | _ => false
    if rule.type = some "string" ∧ isStringVal = false then false
    else if required ∧ strVal = "" then false
    else if ¬ validMinValue rule.min strVal.length then false
    else if ¬ validMaxValue rule.max strVal.length then false
    else true

/-- The emptiness test used by `checkRuleStatus`: arrays are empty iff
zero-length, everything else uses `eqEmptyValue`. -/
def isEmptyVal (val : JVal) : Bool :=
  match val with
  | .vArr xs => xs.isEmpty
  | v => eqEmptyValue v

/-- `checkRuleStatus(rule, val)`: the `required` gate around
`validRuleValue` — required+empty fails outright, not-required+empty
passes vacuously, non-empty values go through the constraint checks. -/
def checkRuleStatus (rule : ValidatorRule) (val : JVal) : Bool :=
  if rule.required then
    if isEmptyVal val then false
    else validRuleValue rule val rule.required
  else
    if ¬ isEmptyVal val then validRuleValue rule val rule.required
    else true

/-! ### Cell Validation Coordinator (`validCellRules`, synchronous part)

`validCellRules` folds over the field's rules, accumulating
`errorRules`, the shared `validRuleErr` flag and the `errLog` calls.
Asynchronous custom validators (thenable returns) are outside this
synchronous model; the claims proved below concern synchronous rule
evaluation, registry lookup and the shared fail-fast flag, all of which
the code performs synchronously before awaiting `syncValidList`. -/

/-- The global validator registry `VxeUI.validators`:
`none` = name not registered; `some none` = registered but providing
neither `tableCellValidatorMethod` nor `cellValidatorMethod`;
`some (some f)` = registered with a cell-validator method. -/
def Registry : Type := String → Option (Option (JVal → CustomResult))

/-- Accumulator of one `validCellRules` call: the ordered `errorRules`
list, the surrounding shared `validRuleErr` flag, and the `errLog`
messages emitted. -/
structure CellCheck where
  errorRules : List ValidatorRule := []
  validRuleErr : Bool := false
  logs : List String := []

/-- The trigger filter of `validCellRules`:
`validType === 'all' || !trigger || validType === trigger`. -/
def ruleApplies (validType : String) (rule : ValidatorRule) : Bool :=
  validType = "all" ∨ rule.trigger = none ∨ rule.trigger = some validType

/-- Handling of a custom validator's (synchronous) return value:
an error-like return is pushed as a failure rule of type `custom` and
trips `validRuleErr`; falsy and other truthy returns pass. -/
def applyCustomValid (st : CellCheck) (rule : ValidatorRule) : CustomResult → CellCheck
  | .errorLike msg =>
      { st with validRuleErr := true,
                errorRules := st.errorRules ++
                  [{ type := some "custom", trigger := rule.trigger, content := msg }] }
  | _ => st

/-- One iteration of the `rules.forEach` body of `validCellRules`:
trigger filter, then custom-validator dispatch (named via the registry,
falling back to `errLog('vxe.error.notValidators')`, or inline), or the
built-in `checkRuleStatus` check. -/
def validCellRule (registry : Registry) (validType : String) (cellValue : JVal)
    (st : CellCheck) (rule : ValidatorRule) : CellCheck :=
  if ruleApplies validType rule then
    match rule.validator with
    | some (.named name) =>
      match registry name with
      | some (some tcvMethod) => applyCustomValid st rule (tcvMethod cellValue)
      | some none => { st with logs := st.logs ++ ["vxe.error.notValidators"] }
      | none => { st with logs := st.logs ++ ["vxe.error.notValidators"] }
    | some (.inline f) => applyCustomValid st rule (f cellValue)
    | none =>
      if ¬ checkRuleStatus rule cellValue then
        { st with validRuleErr := true, errorRules := st.errorRules ++ [rule] }
      else st
  else st

/-- The synchronous accumulation of `validCellRules` over a field's
rule list.  The call rejects with `{ rules: errorRules, rule:
errorRules[0] }` exactly when the resulting `errorRules` is non-empty. -/
def validCellRules (registry : Registry) (validType : String)
    (rules : List ValidatorRule) (cellValue : JVal) : CellCheck :=
  rules.foldl (validCellRule registry validType cellValue) ({} : CellCheck)

/-! ### Error Map Store -/

/-- One entry of `validErrorMaps`, keyed `"<rowId>:<columnId>"`;
`row` and `column` hold the row id and column id of the modelled
row/column objects, `content` the resolved rule message. -/
structure ErrEntry where
  row : String
  column : String
  content : String
  deriving Repr, DecidableEq

/-- The error map, as an insertion-ordered association list — the model
of a JavaScript object with string keys. -/
abbrev ErrMap := List (String × ErrEntry)

/-- JavaScript `obj[key] = v`: replace in place if the key exists
(keeping its position), else append. -/
def assocSet (m : ErrMap) (k : String) (v : ErrEntry) : ErrMap :=
  if m.any (fun p => p.1 = k) then m.map (fun p => if p.1 = k then (k, v) else p)
  else m ++ [(k, v)]

/-- JavaScript `delete obj[key]`. -/
def assocDelete (m : ErrMap) (k : String) : ErrMap :=
  m.filter (fun p => ¬ p.1 = k)

/-- Whether a key is present in the map. -/
def assocHas (m : ErrMap) (k : String) : Bool :=
  m.any (fun p => p.1 = k)

/-- The validation options consumed by the modelled operations. -/
structure ValidOpts where
  msgMode : String := "multi"
  autoPos : Bool := true

/-- `handleErrMsgMode`: in single-message mode keep only the first key
of the session's map, otherwise return the map unchanged. -/
def handleErrMsgMode (validOpts : ValidOpts) (validErrMaps : ErrMap) : ErrMap :=
  if validOpts.msgMode = "single" then
    match validErrMaps with
    | [] => []
    | e :: _ => [e]
  else validErrMaps

/-- Split of a character list at every occurrence of a separator. -/
def splitCharsOn (sep : Char) : List Char → List (List Char)
  | [] => [[]]
  | c :: rest =>
    let r := splitCharsOn sep rest
    if c = sep then [] :: r
    else
      match r with
      | [] => [[c]]
      | g :: gs => (c :: g) :: gs

/-- JavaScript `key.split(':')`. -/
def jsSplitColon (key : String) : List String :=
  (splitCharsOn ':' key.toList).map (fun cs => String.mk cs)

/-- `key.split(':')[0]` — the row-id component of an error-map key. -/
def keyRowPart (key : String) : String :=
  (jsSplitColon key).headD ""

/-- `key.split(':')[1]` — the column-id component of an error-map key. -/
def keyColPart (key : String) : String :=
  ((jsSplitColon key).drop 1).headD ""

/-- `clearValidate(rows, fieldOrColumn)`, acting on the store.
`rowList` holds the row ids of the given rows (`getRowid`), `colList`
the ids of the resolved columns.  Mirrors the source branch for branch:
single-message mode empties the map; rows+columns deletes each
`rowId:colId` key; rows-only and columns-only build a fresh map from
the entries whose key component occurs in the given list
(`indexOf(...) > -1`); no arguments leaves the fresh map empty. -/
def clearValidate (validOpts : ValidOpts) (rowList : List String)
    (colList : List String) (validErrorMaps : ErrMap) : ErrMap :=
  if validOpts.msgMode = "single" then []
  else if rowList ≠ [] ∧ colList ≠ [] then
    rowList.foldl (fun m row =>
      colList.foldl (fun m col => assocDelete m (row ++ ":" ++ col)) m) validErrorMaps
  else if rowList ≠ [] then
    validErrorMaps.filter (fun p => rowList.contains (keyRowPart p.1))
  else if colList ≠ [] then
    validErrorMaps.filter (fun p => colList.contains (keyColPart p.1))
  else []

/-- The `reactData.validErrorMaps` write performed by
`showValidTooltip`: single-message mode replaces the whole map with the
one entry for the failing cell; multi-message mode upserts that entry
(`Object.assign({}, validErrorMaps, { [key]: entry })`). -/
def showValidTooltipMaps (validOpts : ValidOpts) (validErrorMaps : ErrMap)
    (entry : ErrEntry) : ErrMap :=
  if validOpts.msgMode = "single" then
    [(entry.row ++ ":" ++ entry.column, entry)]
  else
    assocSet validErrorMaps (entry.row ++ ":" ++ entry.column) entry

/-! ### Dataset Walker (`beginValidate`'s `handleVaild`) -/

/-- A column: its unique id and its field name. -/
structure MColumn where
  id : String
  field : String
  deriving Repr, DecidableEq

/-- A data row in the walker's working set.  `id` is its stable row id
(`getRowid`); `removed`, `pending` and `aggregate` model membership in
`removeRowMaps`, `pendingRowMaps` and `isAggregateRecord`; `cells` maps
field names to values (`XEUtils.get(row, field)`, `undefined` when
absent). -/
structure MRow where
  id : String
  removed : Bool := false
  pending : Bool := false
  aggregate : Bool := false
  cells : List (String × JVal) := []

/-- `XEUtils.get(row, field)`. -/
def getCellValue (row : MRow) (field : String) : JVal :=
  match row.cells.find? (fun p => p.1 = field) with
  | some p => p.2
  | none => .vUndefined

/-- The grid's `editRules`: field name to ordered rule list. -/
abbrev EditRules := List (String × List ValidatorRule)

/-- `XEUtils.has(editRules, field)`. -/
def hasFieldRules (editRules : EditRules) (field : String) : Bool :=
  editRules.any (fun p => p.1 = field)

/-- `XEUtils.get(editRules, field)`, defaulting to no rules. -/
def getFieldRules (editRules : EditRules) (field : String) : List ValidatorRule :=
  match editRules.find? (fun p => p.1 = field) with
  | some p => p.2
  | none => []

/-- The session state threaded through the walk: the shared fail-fast
flag `validRuleErr`, the session's `validErrMaps`, and (for the frame
statements) the list of `(rowId, field)` cells for which
`validCellRules` was invoked. -/
structure WalkState where
  validRuleErr : Bool := false
  validErrMaps : ErrMap := []
  visited : List (String × String) := []

/-- The per-column body of `handleVaild`: under the fail-fast gate
`isFull || !validRuleErr` (re-checked before every column), run
`validCellRules('all', row, column)` when the column's field has rules;
a failing cell trips the shared flag and records its entry at key
`"<rowId>:<columnId>"` with the first failing rule's content, as the
`.catch` in `beginValidate` does. -/
def handleVaildCol (registry : Registry) (editRules : EditRules) (isFull : Bool)
    (row : MRow) (s : WalkState) (column : MColumn) : WalkState :=
  if (isFull ∨ s.validRuleErr = false) ∧ hasFieldRules editRules column.field then
    let rules := getFieldRules editRules column.field
    let res := validCellRules registry "all" rules (getCellValue row column.field)
    let s1 : WalkState :=
      { s with visited := s.visited ++ [(row.id, column.field)],
               validRuleErr := s.validRuleErr || res.validRuleErr }
    match res.errorRules with
    | [] => s1
    | firstRule :: _ =>
      let entry : ErrEntry := { row := row.id, column := column.id, content := firstRule.content }
      { s1 with validErrMaps := assocSet s1.validErrMaps (row.id ++ ":" ++ column.id) entry }
  else s

/-- `handleVaild(row)` proper: the skip checks, the row-level fail-fast
gate, then the fold of `handleVaildCol` over the column set. -/
def handleVaild (registry : Registry) (editRules : EditRules)
    (columns : List MColumn) (isFull : Bool) (st : WalkState) (row : MRow) : WalkState :=
  if row.removed then st
  else if row.pending then st
  else if row.aggregate then st
  else if isFull ∨ st.validRuleErr = false then
    columns.foldl (handleVaildCol registry editRules isFull row) st
  else st

/-- The walk over the working set performed by `beginValidate`
(`validList.forEach(handleVaild)` for a flat dataset), starting from a
fresh session state (`validRuleErr = false`, empty `validErrMaps`). -/
def beginValidateWalk (registry : Registry) (editRules : EditRules)
    (columns : List MColumn) (isFull : Bool) (validList : List MRow) : WalkState :=
  validList.foldl (handleVaild registry editRules columns isFull) ({} : WalkState)

/-! ### Session state, merge gating, and resolution -/

/-- The table state the validator mutates: `internalData._lastCallTime`
and `reactData.validErrorMaps`. -/
structure TableState where
  lastCallTime : Nat := 0
  validErrorMaps : ErrMap := []
  deriving Repr, DecidableEq

/-- The start of `beginValidate`: record the session-start timestamp
(`internalData._lastCallTime = Date.now()`) and clear prior error state
(`validatorMethods.clearValidate()`, which empties the map in every
message mode when called with no arguments). -/
def sessionStart (now : Nat) (st : TableState) : TableState :=
  { st with lastCallTime := now, validErrorMaps := [] }

/-- The end-of-session merge `reactData.validErrorMaps =
handleErrMsgMode(validErrMaps)`.  As in the source, it is a plain
overwrite of the store from the session's own map: nothing in it reads
`lastCallTime` or the store's current contents. -/
def sessionMerge (validOpts : ValidOpts) (sessionMaps : ErrMap) (st : TableState) : TableState :=
  { st with validErrorMaps := handleErrMsgMode validOpts sessionMaps }

/-- How the awaitable returned by `beginValidate` resolves. -/
inductive SessionOutcome (α : Type) where
  | resolvedVoid
  | resolvedWith (rest : α)
  | rejectedWith (rest : α)
  deriving Repr, DecidableEq

/-- Resolution of one `beginValidate` call together with the arguments
passed to the completion callback (`none` = `cb()` with no argument). -/
structure SessionFinish (α : Type) where
  outcome : SessionOutcome α
  cbCalls : List (Option α)
  deriving Repr, DecidableEq

/-- The resolution logic of `beginValidate`, with `validRest` the
session's failure map when at least one failure exists (`α` is the
type of the field → failure-list map).  Mirrors the source: on success
`cb()` is invoked and the awaitable resolves void; on failure with a
callback, `cb(validRest)` then `resolve()`; on failure without a
callback, `reject(validRest)` only under the deprecated global
`validToReject === 'obsolete'`, else `resolve(validRest)`. -/
def beginValidateFinish {α : Type} (validToReject : Option String)
    (hasCb : Bool) (validRest : Option α) : SessionFinish α :=
  match validRest with
  | some rest =>
    if hasCb then { outcome := .resolvedVoid, cbCalls := [some rest] }
    else if validToReject = some "obsolete" then { outcome := .rejectedWith rest, cbCalls := [] }
    else { outcome := .resolvedWith rest, cbCalls := [] }
  | none =>
    if hasCb then { outcome := .resolvedVoid, cbCalls := [none] }
    else { outcome := .resolvedVoid, cbCalls := [] }

/-! ### `validateField` / `fullValidateField` and full sessions -/

/-- The `fieldOrColumn` argument of `validateField`,
`fullValidateField` and `clearValidate`: absent/falsy, a single
field-or-column, or an array of them (already resolved to columns, as
`handleFieldOrColumn` does). -/
inductive FieldOrColumn where
  | absent
  | one (c : MColumn)
  | many (cs : List MColumn)

/-- `XEUtils.isArray(fieldOrColumn) ? fieldOrColumn : (fieldOrColumn ?
[fieldOrColumn] : [])`. -/
def colListOf : FieldOrColumn → List MColumn
  | .absent => []
  | .one c => [c]
  | .many cs => cs

/-- One whole `beginValidate` call on the store (rules present):
record the timestamp and clear prior errors, choose the column set
(`cols && cols.length ? cols : getColumns()`), walk the working set,
and merge the session's map.  Returns the final store and the walk
result. -/
def beginValidateSession (registry : Registry) (editRules : EditRules)
    (validOpts : ValidOpts) (allColumns : List MColumn) (cols : List MColumn)
    (isFull : Bool) (validList : List MRow) (now : Nat) (st : TableState) :
    TableState × WalkState :=
  let st1 := sessionStart now st
  let columns := if cols ≠ [] then cols else allColumns
  let w := beginValidateWalk registry editRules columns isFull validList
  (sessionMerge validOpts w.validErrMaps st1, w)

/-- `validateField` / `fullValidateField`: resolve the selector to a
column list; when it is non-empty, delegate to `beginValidate` with
those columns; otherwise return `nextTick()` — the second component is
`none`, no session ran, no cell was validated, and the store is
returned untouched. -/
def validateFieldRun (registry : Registry) (editRules : EditRules)
    (validOpts : ValidOpts) (allColumns : List MColumn) (isFull : Bool)
    (validList : List MRow) (now : Nat) (fieldOrColumn : FieldOrColumn)
    (st : TableState) : TableState × Option WalkState :=
  let colList := colListOf fieldOrColumn
  if colList ≠ [] then
    let r := beginValidateSession registry editRules validOpts allColumns colList
      isFull validList now st
    (r.1, some r.2)
  else (st, none)

/-- The store effect of one failing validation session under the
default `autoPos = true` configuration: session start (timestamp +
clear), then — in exhaustive mode, where `Promise.all` resolves — the
end-of-session merge, and finally the `showValidTooltip` write for the
first failing cell performed by `handleValidError`.  (In fail-fast
mode the rejection of `rowValidErrs` skips the merge, so only the
tooltip write reaches the store.) -/
def failingSessionStore (validOpts : ValidOpts) (isFull : Bool) (sessionMaps : ErrMap)
    (firstErr : ErrEntry) (now : Nat) (st : TableState) : TableState :=
  let st1 := sessionStart now st
  let st2 := if isFull then sessionMerge validOpts sessionMaps st1 else st1
  { st2 with validErrorMaps := showValidTooltipMaps validOpts st2.validErrorMaps firstErr }

/-! ## Sanity checks against the spec's scenarios (§8) -/

theorem scenario_number_rule_age :
    checkRuleStatus { required := true, type := some "number", min := some 18 } (.vNum 15) = false
    ∧ checkRuleStatus { required := true, type := some "number", min := some 18 } (.vNum 20) = true
    ∧ checkRuleStatus { required := true, type := some "number", min := some 18 } .vNull = false := by
  decide

theorem scenario_array_rule_tags :
    checkRuleStatus { type := some "array", min := some 1 } (.vArr []) = true
    ∧ checkRuleStatus { type := some "array", min := some 1 } (.vArr [.vStr "a"]) = true
    ∧ checkRuleStatus { type := some "array", min := some 1 } (.vStr "x") = false := by
  decide

/-! ## Claims -/

/-- **C4.** For every built-in rule and every cell value: a
`required=true` rule on an empty value (zero-length for arrays,
semantically empty otherwise) fails with no dependence on `min`, `max`
or `pattern` (the rule is universally quantified, so the result `false`
holds for every choice of those attributes, i.e. they are not
evaluated); a rule with falsy `required` on an empty value passes
unconditionally; on a non-empty value the constraint checks
`validRuleValue` are applied regardless of `required`. -/
theorem C4_required_empty_gating (rule : ValidatorRule) (val : JVal) :
    (rule.required = true → isEmptyVal val = true → checkRuleStatus rule val = false)
    ∧ (rule.required = false → isEmptyVal val = true → checkRuleStatus rule val = true)
    ∧ (isEmptyVal val = false → checkRuleStatus rule val = validRuleValue rule val rule.required) := by
  refine ⟨fun hr he => ?_, fun hr he => ?_, fun he => ?_⟩
  · simp [checkRuleStatus, hr, he]
  · simp [checkRuleStatus, hr, he]
  · cases hr : rule.required <;> simp [checkRuleStatus, hr, he]

/-- Witness for C4 at concrete inputs: `null` is empty, so a required
rule (with a `min` bound present) fails and a non-required rule (with a
`min` bound present) passes; `5` is non-empty, so the rule with a `max`
bound goes through the constraint checks. -/
theorem C4_required_empty_gating_witness :
    (({ required := true, min := some 1 } : ValidatorRule).required = true
      ∧ isEmptyVal JVal.vNull = true
      ∧ checkRuleStatus { required := true, min := some 1 } JVal.vNull = false)
    ∧ (({ min := some 1 } : ValidatorRule).required = false
      ∧ checkRuleStatus { min := some 1 } JVal.vNull = true)
    ∧ (isEmptyVal (JVal.vNum 5) = false
      ∧ checkRuleStatus { max := some 0 } (JVal.vNum 5)
          = validRuleValue { max := some 0 } (JVal.vNum 5) false) :=
  ⟨⟨rfl, rfl, (C4_required_empty_gating _ _).1 rfl rfl⟩,
   ⟨rfl, (C4_required_empty_gating _ _).2.1 rfl rfl⟩,
   ⟨rfl, (C4_required_empty_gating _ _).2.2 rfl⟩⟩

/-- **C5, counterexample.** The claim "for every rule with type
`number` and every value that does not parse to a finite number, rule
evaluation fails, regardless of whether required is set" is false as
stated: `undefined` does not parse to a number (`Number(undefined)` is
`NaN`), yet with `required` unset it is an empty value, so
`checkRuleStatus` passes it vacuously without ever reaching the
numeric check. -/
theorem C5_nonnumeric_counterexample :
    jsToNumber JVal.vUndefined = none
    ∧ checkRuleStatus { required := false, type := some "number", min := some 1, max := some 9 }
        JVal.vUndefined = true := by
  decide

/-- **C5, amended.** For every rule with type `number` and every
*non-empty* value that does not parse to a finite number, rule
evaluation fails regardless of `required` (empty values are governed by
the `required` gate of C4 instead). -/
theorem C5_nonnumeric_fails (rule : ValidatorRule) (val : JVal)
    (hty : rule.type = some "number") (hne : isEmptyVal val = false)
    (hnan : jsToNumber val = none) :
    checkRuleStatus rule val = false := by
  have harr : ¬ (rule.type = some "array") := by rw [hty]; decide
  have hv : ∀ rq, validRuleValue rule val rq = false := by
    intro rq
    unfold validRuleValue
    cases hre : validREValue rule.pattern (jsToString val) <;>
      simp [hre, harr, hty, hnan]
  cases hr : rule.required <;> simp [checkRuleStatus, hr, hne, hv]

/-- Witness for C5 (amended) at a concrete input: the string `"abc"`
is non-empty and non-numeric, and a required `number` rule fails on
it. -/
theorem C5_nonnumeric_fails_witness :
    ({ required := true, type := some "number" } : ValidatorRule).type = some "number"
    ∧ isEmptyVal (JVal.vStr "abc") = false
    ∧ jsToNumber (JVal.vStr "abc") = none
    ∧ checkRuleStatus { required := true, type := some "number" } (JVal.vStr "abc") = false :=
  ⟨rfl, rfl, by decide, C5_nonnumeric_fails _ _ rfl rfl (by decide)⟩

/-- **C1.** The claim says a rows-only `clearValidate` call removes
exactly the entries whose row-id component matches a given row and
preserves the rest (symmetrically for columns-only).  The code does the
opposite: the rows-only and columns-only branches *keep* exactly the
matching entries (`indexOf(...) > -1` copies matches into the fresh
map) and drop everything else, while the rows+columns branch correctly
deletes the intersection — so clearing row `r1` from a map holding
entries for `r1` and `r2` leaves the `r1` entry and destroys the `r2`
entry, and clearing column `c1` from a map holding columns `c1` and
`c2` leaves the `c1` entry and destroys the `c2` entry.  This theorem
evaluates the code at those failing inputs (multi-message mode). -/
theorem C1_clearValidate_inverted_eval :
    clearValidate { msgMode := "multi" } ["r1"] []
        [("r1:c1", { row := "r1", column := "c1", content := "e1" }),
         ("r2:c1", { row := "r2", column := "c1", content := "e2" })]
      = [("r1:c1", { row := "r1", column := "c1", content := "e1" })]
    ∧ clearValidate { msgMode := "multi" } [] ["c1"]
        [("r1:c1", { row := "r1", column := "c1", content := "e1" }),
         ("r1:c2", { row := "r1", column := "c2", content := "e3" })]
      = [("r1:c1", { row := "r1", column := "c1", content := "e1" })]
    ∧ clearValidate { msgMode := "multi" } ["r1"] ["c1"]
        [("r1:c1", { row := "r1", column := "c1", content := "e1" }),
         ("r2:c1", { row := "r2", column := "c1", content := "e2" })]
      = [("r2:c1", { row := "r2", column := "c1", content := "e2" })] := by
  decide

/-- **C2, counterexample.** The claim says a failing session with no
callback always rejects with the failure map.  With the global
`validToReject` setting at its default (not `'obsolete'`), the code
*resolves* with the failure map instead of rejecting. -/
theorem C2_no_callback_resolves_counterexample :
    beginValidateFinish (α := Nat) none false (some 7)
      = { outcome := SessionOutcome.resolvedWith 7, cbCalls := [] }
    ∧ (beginValidateFinish (α := Nat) none false (some 7)).outcome
      ≠ SessionOutcome.rejectedWith 7 := by
  decide

/-- **C2, amended.** For every failing session: with a callback the
awaitable resolves void and the failure map is delivered only through
the callback argument (and a succeeding session calls the callback with
no argument); without a callback the awaitable rejects with the failure
map only when the global `validToReject` setting is `'obsolete'`, and
otherwise resolves with the failure map. -/
theorem C2_callback_vs_reject {α : Type} (validToReject : Option String) (rest : α) :
    beginValidateFinish validToReject true (some rest)
      = { outcome := SessionOutcome.resolvedVoid, cbCalls := [some rest] }
    ∧ beginValidateFinish validToReject true (none : Option α)
      = { outcome := SessionOutcome.resolvedVoid, cbCalls := [none] }
    ∧ (validToReject = some "obsolete" →
        beginValidateFinish validToReject false (some rest)
          = { outcome := SessionOutcome.rejectedWith rest, cbCalls := [] })
    ∧ (validToReject ≠ some "obsolete" →
        beginValidateFinish validToReject false (some rest)
          = { outcome := SessionOutcome.resolvedWith rest, cbCalls := [] }) := by
  refine ⟨by simp [beginValidateFinish], by simp [beginValidateFinish], fun h => ?_, fun h => ?_⟩
  · simp [beginValidateFinish, h]
  · simp [beginValidateFinish, h]

/-- Witness for C2 (amended) at concrete inputs: with the default
(unset) `validToReject`, a failing no-callback session resolves with
the map, and under `'obsolete'` it rejects. -/
theorem C2_callback_vs_reject_witness :
    beginValidateFinish (α := Nat) none false (some 5)
      = { outcome := SessionOutcome.resolvedWith 5, cbCalls := [] }
    ∧ beginValidateFinish (α := Nat) (some "obsolete") false (some 5)
      = { outcome := SessionOutcome.rejectedWith 5, cbCalls := [] } :=
  ⟨(C2_callback_vs_reject none 5).2.2.2 (by decide),
   (C2_callback_vs_reject (some "obsolete") 5).2.2.1 rfl⟩

/-- **C9.** The claim says merges into the error map are gated by
session identity via the recorded session-start timestamp, so a stale
session can never corrupt a newer session's map.  The code records
`internalData._lastCallTime = Date.now()` but never reads it: the
end-of-session merge `reactData.validErrorMaps =
handleErrMsgMode(validErrMaps)` overwrites the store unconditionally.
Failing interleaving, evaluated here: session A starts at time 1,
session B starts at time 2 and merges its map; A's late merge then
runs and replaces B's entries even though the recorded timestamp (2)
identifies B as the current session. -/
theorem C9_stale_merge_overwrites_eval :
    (sessionMerge { msgMode := "multi" } [("rA:c1", { row := "rA", column := "c1", content := "old" })]
        (sessionMerge { msgMode := "multi" } [("rB:c1", { row := "rB", column := "c1", content := "new" })]
          (sessionStart 2 (sessionStart 1 ({} : TableState))))).lastCallTime = 2
    ∧ (sessionMerge { msgMode := "multi" } [("rA:c1", { row := "rA", column := "c1", content := "old" })]
        (sessionMerge { msgMode := "multi" } [("rB:c1", { row := "rB", column := "c1", content := "new" })]
          (sessionStart 2 (sessionStart 1 ({} : TableState))))).validErrorMaps
      = [("rA:c1", { row := "rA", column := "c1", content := "old" })]
    ∧ (sessionMerge { msgMode := "multi" } [("rB:c1", { row := "rB", column := "c1", content := "new" })]
        (sessionStart 2 (sessionStart 1 ({} : TableState)))).validErrorMaps
      = [("rB:c1", { row := "rB", column := "c1", content := "new" })] := by
  decide

/-- Shared helper: `handleVaild` returns its state unchanged on rows
that are removed, pending-delete, or aggregate records. -/
theorem handleVaild_skip (registry : Registry) (editRules : EditRules)
    (columns : List MColumn) (isFull : Bool) (st : WalkState) (row : MRow)
    (h : row.removed = true ∨ row.pending = true ∨ row.aggregate = true) :
    handleVaild registry editRules columns isFull st row = st := by
  rcases h with h | h | h <;> simp [handleVaild, h]

/-- **C7.** For every row in a validation session's working set, a row
marked removed, marked pending-delete, or classified as an aggregate
record is skipped entirely by the dataset walker: the walk state is
returned unchanged, so none of the row's cells are validated (no
`visited` entry) and it contributes nothing to the error map. -/
theorem C7_skipped_rows_contribute_nothing (registry : Registry) (editRules : EditRules)
    (columns : List MColumn) (isFull : Bool) (st : WalkState) (row : MRow)
    (h : row.removed = true ∨ row.pending = true ∨ row.aggregate = true) :
    handleVaild registry editRules columns isFull st row = st :=
  handleVaild_skip registry editRules columns isFull st row h

/-- Witness for C7: a pending-delete row with a failing required cell
is skipped — the walk state stays exactly the clean initial state. -/
theorem C7_skipped_rows_contribute_nothing_witness :
    ({ id := "r1", pending := true, cells := [("a", JVal.vNull)] } : MRow).pending = true
    ∧ handleVaild (fun _ => none) [("a", [{ required := true }])] [{ id := "c1", field := "a" }]
        false ({} : WalkState) { id := "r1", pending := true, cells := [("a", JVal.vNull)] }
      = ({} : WalkState) :=
  ⟨rfl, C7_skipped_rows_contribute_nothing _ _ _ _ _ _ (Or.inr (Or.inl rfl))⟩

/-- **C8.** For every rule whose validator is a name that the global
registry does not know (or knows without a cell-validator method), cell
validation logs the configuration error and treats the rule as passing:
`errorRules` and the shared flag are untouched, only the error log
grows, and the fold continues with the remaining rules — no exception
reaches the caller (the evaluator is a total function of the rule
list). -/
theorem C8_unknown_validator_passes (registry : Registry) (validType : String)
    (cellValue : JVal) (name : String) (rule : ValidatorRule)
    (rest : List ValidatorRule) (st : CellCheck)
    (happ : ruleApplies validType rule = true)
    (hv : rule.validator = some (RuleValidator.named name))
    (hreg : registry name = none ∨ registry name = some none) :
    validCellRule registry validType cellValue st rule
      = { st with logs := st.logs ++ ["vxe.error.notValidators"] }
    ∧ List.foldl (validCellRule registry validType cellValue) st (rule :: rest)
      = List.foldl (validCellRule registry validType cellValue)
          { st with logs := st.logs ++ ["vxe.error.notValidators"] } rest := by
  have h1 : validCellRule registry validType cellValue st rule
      = { st with logs := st.logs ++ ["vxe.error.notValidators"] } := by
    rcases hreg with hreg | hreg <;> simp [validCellRule, happ, hv, hreg]
  exact ⟨h1, by rw [List.foldl_cons, h1]⟩

/-- Witness for C8: a two-rule list whose first rule names an
unregistered validator — the first rule only logs, and the second
(failing required) rule is still evaluated. -/
theorem C8_unknown_validator_passes_witness :
    ruleApplies "all" ({ validator := some (RuleValidator.named "myCheck") } : ValidatorRule) = true
    ∧ validCellRule (fun _ => none) "all" JVal.vNull ({} : CellCheck)
        { validator := some (RuleValidator.named "myCheck") }
      = { logs := ["vxe.error.notValidators"] } :=
  ⟨by decide,
   (C8_unknown_validator_passes (fun _ => none) "all" JVal.vNull "myCheck" _ [] {}
      (by decide) rfl (Or.inl rfl)).1⟩

/-- **C6.** In single-message mode every store operation keeps at most
one entry: the session merge `handleErrMsgMode` keeps only the first
entry of the session map, the `showValidTooltip` record operation
replaces the whole map with exactly the one entry just recorded, and
every `clearValidate` call empties the map.  After two sequential
failing sessions (each: clear, merge when exhaustive, then the
tooltip record of its first failing cell under the default
`autoPos`), the store holds exactly one entry — the one recorded by
the most recent record operation, which belongs to the second
session. -/
theorem C6_single_message_mode (m m' : ErrMap) (e : ErrEntry)
    (rows cols : List String) (isFull1 isFull2 : Bool) (m1 m2 : ErrMap)
    (e1 e2 : ErrEntry) (now1 now2 : Nat) (st : TableState) :
    (handleErrMsgMode { msgMode := "single" } m).length ≤ 1
    ∧ showValidTooltipMaps { msgMode := "single" } m' e = [(e.row ++ ":" ++ e.column, e)]
    ∧ clearValidate { msgMode := "single" } rows cols m = []
    ∧ (failingSessionStore { msgMode := "single" } isFull2 m2 e2 now2
         (failingSessionStore { msgMode := "single" } isFull1 m1 e1 now1 st)).validErrorMaps
      = [(e2.row ++ ":" ++ e2.column, e2)] := by
  refine ⟨?_, rfl, rfl, rfl⟩
  cases m <;> simp [handleErrMsgMode]

/-- **C10.** A `validateField` / `fullValidateField` call whose
field/column selector is absent, falsy, or an empty array resolves via
a bare `nextTick()` (second component `none`: no session, no cell
validated) and leaves the store — including prior validation errors —
untouched; by contrast `validate`/`fullValidate` sessions go through
`beginValidate`, whose initial `clearValidate()` makes the resulting
error map independent of whatever the store held before. -/
theorem C10_empty_selector_noop (registry : Registry) (editRules : EditRules)
    (validOpts : ValidOpts) (allColumns : List MColumn) (isFull : Bool)
    (validList : List MRow) (now : Nat) (sel : FieldOrColumn) (st : TableState)
    (h : colListOf sel = []) :
    validateFieldRun registry editRules validOpts allColumns isFull validList now sel st
      = (st, none)
    ∧ ∀ (cols : List MColumn) (st1 st2 : TableState),
        (beginValidateSession registry editRules validOpts allColumns cols isFull
            validList now st1).1.validErrorMaps
        = (beginValidateSession registry editRules validOpts allColumns cols isFull
            validList now st2).1.validErrorMaps := by
  exact ⟨by simp [validateFieldRun, h], fun cols st1 st2 => rfl⟩

/-- Witness for C10: an empty-array selector with a pre-existing error
entry in the store — the call is a no-op and the prior entry
survives. -/
theorem C10_empty_selector_noop_witness :
    colListOf (FieldOrColumn.many []) = []
    ∧ validateFieldRun (fun _ => none) [] {} [] false [] 0 (FieldOrColumn.many [])
        { lastCallTime := 0, validErrorMaps := [("r:c", { row := "r", column := "c", content := "m" })] }
      = ({ lastCallTime := 0, validErrorMaps := [("r:c", { row := "r", column := "c", content := "m" })] }, none) :=
  ⟨rfl, (C10_empty_selector_noop (fun _ => none) [] {} [] false [] 0 (FieldOrColumn.many [])
      { lastCallTime := 0, validErrorMaps := [("r:c", { row := "r", column := "c", content := "m" })] } rfl).1⟩

/-! ### Helper lemmas for the fail-fast / exhaustive walk (C3) -/

/-- `assocSet` never empties a map. -/
theorem assocSet_ne_nil (m : ErrMap) (k : String) (v : ErrEntry) : assocSet m k v ≠ [] := by
  unfold assocSet
  split
  case isTrue h =>
    intro hc
    rcases m with _ | ⟨p, m⟩
    · simp at h
    · simp at hc
  case isFalse h =>
    intro hc
    simp at hc

/-- Members of `assocSet m k v` come from `m` or are the new pair. -/
theorem mem_assocSet {m : ErrMap} {k : String} {v : ErrEntry} {x : String × ErrEntry}
    (hx : x ∈ assocSet m k v) : x ∈ m ∨ x = (k, v) := by
  unfold assocSet at hx
  split at hx
  · rcases List.mem_map.1 hx with ⟨p, hp, he⟩
    by_cases h : p.1 = k
    · rw [if_pos h] at he
      exact Or.inr he.symm
    · rw [if_neg h] at he
      exact Or.inl (he ▸ hp)
  · rcases List.mem_append.1 hx with h | h
    · exact Or.inl h
    · right
      simpa using h

/-- The upserted pair is a member of `assocSet m k v`. -/
theorem self_mem_assocSet (m : ErrMap) (k : String) (v : ErrEntry) :
    (k, v) ∈ assocSet m k v := by
  unfold assocSet
  split
  case isTrue h =>
    rcases List.any_eq_true.1 h with ⟨p, hp, hpk⟩
    have hk : p.1 = k := of_decide_eq_true hpk
    refine List.mem_map.2 ⟨p, hp, ?_⟩
    rw [if_pos hk]
  case isFalse h =>
    exact List.mem_append.2 (Or.inr (by simp))

/-- Presence of a key survives any `assocSet`. -/
theorem keyMem_assocSet {m : ErrMap} {k' : String} (k : String) (v : ErrEntry)
    (h : ∃ e, (k', e) ∈ m) : ∃ e, (k', e) ∈ assocSet m k v := by
  by_cases hk : k' = k
  · subst hk
    exact ⟨v, self_mem_assocSet m k' v⟩
  · rcases h with ⟨e, he⟩
    refine ⟨e, ?_⟩
    unfold assocSet
    split
    · refine List.mem_map.2 ⟨(k', e), he, ?_⟩
      rw [if_neg (by simpa using hk)]
    · exact List.mem_append.2 (Or.inl he)

/-- Every `validCellRule` step either leaves the accumulator unchanged,
pushes one failure rule while tripping the flag, or only appends a
configuration-error log. -/
theorem validCellRule_shape (registry : Registry) (validType : String) (cellValue : JVal)
    (st : CellCheck) (rule : ValidatorRule) :
    validCellRule registry validType cellValue st rule = st
    ∨ (∃ r, validCellRule registry validType cellValue st rule
        = { st with validRuleErr := true, errorRules := st.errorRules ++ [r] })
    ∨ validCellRule registry validType cellValue st rule
      = { st with logs := st.logs ++ ["vxe.error.notValidators"] } := by
  unfold validCellRule
  by_cases happ : ruleApplies validType rule = true
  · rw [if_pos happ]
    rcases hval : rule.validator with _ | v
    · by_cases hc : checkRuleStatus rule cellValue = true
      · left
        simp [hc]
      · right; left
        refine ⟨rule, ?_⟩
        simp [hc]
    · rcases v with name | f
      · rcases hreg : registry name with _ | g
        · right; right
          simp [hreg]
        · rcases g with _ | tcv
          · right; right
            simp [hreg]
          · rcases hres : tcv cellValue with _ | _ | msg
            · left
              simp [hreg, applyCustomValid, hres]
            · left
              simp [hreg, applyCustomValid, hres]
            · right; left
              refine ⟨{ type := some "custom", trigger := rule.trigger, content := msg }, ?_⟩
              simp [hreg, applyCustomValid, hres]
      · rcases hres : f cellValue with _ | _ | msg
        · left
          simp [applyCustomValid, hres]
        · left
          simp [applyCustomValid, hres]
        · right; left
          refine ⟨{ type := some "custom", trigger := rule.trigger, content := msg }, ?_⟩
          simp [applyCustomValid, hres]
  · left
    rw [if_neg happ]

/-- Fold invariant: throughout `validCellRules`, the shared flag is
tripped exactly when some failure rule has been pushed. -/
theorem validCellRules_foldl_flag_iff (registry : Registry) (validType : String)
    (cellValue : JVal) :
    ∀ (rules : List ValidatorRule) (st : CellCheck),
      (st.validRuleErr = true ↔ st.errorRules ≠ []) →
      ((rules.foldl (validCellRule registry validType cellValue) st).validRuleErr = true
        ↔ (rules.foldl (validCellRule registry validType cellValue) st).errorRules ≠ []) := by
  intro rules
  induction rules with
  | nil => exact fun st h => h
  | cons r rs ih =>
    intro st h
    rw [List.foldl_cons]
    apply ih
    rcases validCellRule_shape registry validType cellValue st r with hs | ⟨r', hs⟩ | hs <;> rw [hs]
    · exact h
    · simp
    · exact h

/-- In a `validCellRules` result, the flag is set iff `errorRules` is
non-empty. -/
theorem validCellRules_flag_iff (registry : Registry) (validType : String)
    (rules : List ValidatorRule) (cellValue : JVal) :
    (validCellRules registry validType rules cellValue).validRuleErr = true
    ↔ (validCellRules registry validType rules cellValue).errorRules ≠ [] :=
  validCellRules_foldl_flag_iff registry validType cellValue rules {} (by simp)

/-- In fail-fast mode a tripped flag makes `handleVaild` a no-op. -/
theorem handleVaild_flag_noop (registry : Registry) (editRules : EditRules)
    (columns : List MColumn) (st : WalkState) (row : MRow)
    (h : st.validRuleErr = true) :
    handleVaild registry editRules columns false st row = st := by
  simp [handleVaild, h]

/-- In fail-fast mode, once the flag is tripped the rest of the row
walk leaves the state untouched. -/
theorem foldl_handleVaild_flag_noop (registry : Registry) (editRules : EditRules)
    (columns : List MColumn) :
    ∀ (rows : List MRow) (st : WalkState), st.validRuleErr = true →
      rows.foldl (handleVaild registry editRules columns false) st = st := by
  intro rows
  induction rows with
  | nil => exact fun st _ => rfl
  | cons r rs ih =>
    intro st h
    rw [List.foldl_cons, handleVaild_flag_noop registry editRules columns st r h, ih st h]

/-- Invariant carried along the fail-fast column fold of one row:
every visited cell and every recorded entry belongs to this row, the
error map is empty until the flag trips and non-empty from then on,
and it never holds more than one entry. -/
def FailFastInv (rid : String) (s : WalkState) : Prop :=
  (∀ p ∈ s.visited, p.1 = rid)
  ∧ (∀ kv ∈ s.validErrMaps, (kv.2).row = rid)
  ∧ (s.validRuleErr = false → s.validErrMaps = [])
  ∧ (s.validRuleErr = true → s.validErrMaps ≠ [])
  ∧ s.validErrMaps.length ≤ 1

/-- The clean initial walk state satisfies the invariant for any row. -/
theorem failFastInv_init (rid : String) : FailFastInv rid ({} : WalkState) := by
  refine ⟨?_, ?_, fun _ => rfl, ?_, ?_⟩ <;> simp [FailFastInv]

/-- `handleVaildCol` in fail-fast mode preserves the invariant. -/
theorem failFastInv_handleVaildCol (registry : Registry) (editRules : EditRules)
    (row : MRow) (column : MColumn) {s : WalkState}
    (hs : FailFastInv row.id s) :
    FailFastInv row.id (handleVaildCol registry editRules false row s column) := by
  obtain ⟨hvis, hrow, hempty, hne, hlen⟩ := hs
  unfold handleVaildCol
  split
  case isTrue hg =>
    have hflag : s.validRuleErr = false := by
      rcases hg.1 with h | h
      · cases h
      · exact h
    have hmaps : s.validErrMaps = [] := hempty hflag
    cases hres : (validCellRules registry "all" (getFieldRules editRules column.field)
        (getCellValue row column.field)).errorRules with
    | nil =>
      have hrflag : (validCellRules registry "all" (getFieldRules editRules column.field)
          (getCellValue row column.field)).validRuleErr = false := by
        rcases hb : (validCellRules registry "all" (getFieldRules editRules column.field)
            (getCellValue row column.field)).validRuleErr with _ | _
        · rfl
        · exact absurd hres ((validCellRules_flag_iff registry "all" _ _).1 hb)
      simp only [hres]
      refine ⟨?_, hrow, ?_, ?_, hlen⟩
      · intro p hp
        rcases List.mem_append.1 hp with h | h
        · exact hvis p h
        · simpa using congrArg Prod.fst (List.mem_singleton.1 h)
      · intro _
        exact hmaps
      · intro hc
        rw [hflag, hrflag] at hc
        cases hc
    | cons firstRule tail =>
      have hrflag : (validCellRules registry "all" (getFieldRules editRules column.field)
          (getCellValue row column.field)).validRuleErr = true := by
        apply (validCellRules_flag_iff registry "all" _ _).2
        rw [hres]
        simp
      simp only [hres]
      unfold FailFastInv
      dsimp only
      rw [hmaps]
      refine ⟨?_, ?_, ?_, ?_, ?_⟩
      · intro p hp
        rcases List.mem_append.1 hp with h | h
        · exact hvis p h
        · simpa using congrArg Prod.fst (List.mem_singleton.1 h)
      · intro kv hkv
        rcases mem_assocSet hkv with h | h
        · cases h
        · rw [h]
      · intro hc
        rw [hflag, hrflag] at hc
        cases hc
      · intro _
        exact assocSet_ne_nil _ _ _
      · show (assocSet [] _ _).length ≤ 1
        simp [assocSet]
  case isFalse hg =>
    exact ⟨hvis, hrow, hempty, hne, hlen⟩

/-- The whole fail-fast column fold preserves the invariant. -/
theorem failFastInv_foldl_cols (registry : Registry) (editRules : EditRules) (row : MRow) :
    ∀ (columns : List MColumn) (s : WalkState), FailFastInv row.id s →
      FailFastInv row.id (columns.foldl (handleVaildCol registry editRules false row) s) := by
  intro columns
  induction columns with
  | nil => exact fun s hs => hs
  | cons c cs ih =>
    intro s hs
    rw [List.foldl_cons]
    exact ih _ (failFastInv_handleVaildCol registry editRules row c hs)

/-- One fail-fast `handleVaild` step preserves the invariant. -/
theorem failFastInv_handleVaild (registry : Registry) (editRules : EditRules)
    (columns : List MColumn) (row : MRow) {s : WalkState}
    (hs : FailFastInv row.id s) :
    FailFastInv row.id (handleVaild registry editRules columns false s row) := by
  unfold handleVaild
  split
  · exact hs
  split
  · exact hs
  split
  · exact hs
  split
  · exact failFastInv_foldl_cols registry editRules row columns s hs
  · exact hs

/-- A key present in the error map survives a `handleVaildCol` step. -/
theorem keyMem_handleVaildCol (registry : Registry) (editRules : EditRules)
    (isFull : Bool) (row : MRow) (s : WalkState) (column : MColumn) {k : String}
    (h : ∃ e, (k, e) ∈ s.validErrMaps) :
    ∃ e, (k, e) ∈ (handleVaildCol registry editRules isFull row s column).validErrMaps := by
  unfold handleVaildCol
  split
  · cases hres : (validCellRules registry "all" (getFieldRules editRules column.field)
        (getCellValue row column.field)).errorRules with
    | nil =>
      simp only [hres]
      exact h
    | cons firstRule tail =>
      simp only [hres]
      exact keyMem_assocSet _ _ h
  · exact h

/-- A key present in the error map survives the column fold. -/
theorem keyMem_foldl_cols (registry : Registry) (editRules : EditRules)
    (isFull : Bool) (row : MRow) {k : String} :
    ∀ (columns : List MColumn) (s : WalkState),
      (∃ e, (k, e) ∈ s.validErrMaps) →
      ∃ e, (k, e) ∈ (columns.foldl (handleVaildCol registry editRules isFull row) s).validErrMaps := by
  intro columns
  induction columns with
  | nil => exact fun s h => h
  | cons c cs ih =>
    intro s h
    rw [List.foldl_cons]
    exact ih _ (keyMem_handleVaildCol registry editRules isFull row s c h)

/-- A key present in the error map survives a `handleVaild` row step. -/
theorem keyMem_handleVaild (registry : Registry) (editRules : EditRules)
    (columns : List MColumn) (isFull : Bool) (s : WalkState) (row : MRow) {k : String}
    (h : ∃ e, (k, e) ∈ s.validErrMaps) :
    ∃ e, (k, e) ∈ (handleVaild registry editRules columns isFull s row).validErrMaps := by
  unfold handleVaild
  split
  · exact h
  split
  · exact h
  split
  · exact h
  split
  · exact keyMem_foldl_cols registry editRules isFull row columns s h
  · exact h

/-- A key present in the error map survives the rest of the row walk. -/
theorem keyMem_foldl_rows (registry : Registry) (editRules : EditRules)
    (columns : List MColumn) (isFull : Bool) {k : String} :
    ∀ (rows : List MRow) (s : WalkState),
      (∃ e, (k, e) ∈ s.validErrMaps) →
      ∃ e, (k, e) ∈ (rows.foldl (handleVaild registry editRules columns isFull) s).validErrMaps := by
  intro rows
  induction rows with
  | nil => exact fun s h => h
  | cons r rs ih =>
    intro s h
    rw [List.foldl_cons]
    exact ih _ (keyMem_handleVaild registry editRules columns isFull s r h)

/-- In exhaustive mode, a failing eligible cell records its key. -/
theorem handleVaildCol_records (registry : Registry) (editRules : EditRules)
    (row : MRow) (column : MColumn) (s : WalkState)
    (hhas : hasFieldRules editRules column.field = true)
    (hfail : (validCellRules registry "all" (getFieldRules editRules column.field)
        (getCellValue row column.field)).errorRules ≠ []) :
    ∃ e, (row.id ++ ":" ++ column.id, e)
      ∈ (handleVaildCol registry editRules true row s column).validErrMaps := by
  unfold handleVaildCol
  rw [if_pos ⟨Or.inl rfl, hhas⟩]
  cases hres : (validCellRules registry "all" (getFieldRules editRules column.field)
      (getCellValue row column.field)).errorRules with
  | nil => exact absurd hres hfail
  | cons firstRule tail =>
    simp only [hres]
    exact ⟨_, self_mem_assocSet _ _ _⟩

/-- In exhaustive mode, a non-skipped row's failing eligible cell
records its key during the row's `handleVaild` step. -/
theorem handleVaild_records (registry : Registry) (editRules : EditRules)
    (columns : List MColumn) (s : WalkState) (row : MRow) (column : MColumn)
    (hr : row.removed = false) (hp : row.pending = false) (ha : row.aggregate = false)
    (hc : column ∈ columns)
    (hhas : hasFieldRules editRules column.field = true)
    (hfail : (validCellRules registry "all" (getFieldRules editRules column.field)
        (getCellValue row column.field)).errorRules ≠ []) :
    ∃ e, (row.id ++ ":" ++ column.id, e)
      ∈ (handleVaild registry editRules columns true s row).validErrMaps := by
  unfold handleVaild
  split
  case isTrue h => simp [hr] at h
  split
  case isTrue h => simp [hp] at h
  split
  case isTrue h => simp [ha] at h
  split
  case isFalse h => exact absurd (Or.inl rfl) h
  rcases List.append_of_mem hc with ⟨l1, l2, rfl⟩
  rw [List.foldl_append, List.foldl_cons]
  exact keyMem_foldl_cols registry editRules true row l2 _
    (handleVaildCol_records registry editRules row column _ hhas hfail)

/-- In exhaustive mode, every failing eligible cell of every
non-skipped row of the working set ends up keyed in the walk's error
map. -/
theorem beginValidateWalk_records (registry : Registry) (editRules : EditRules)
    (columns : List MColumn) (validList : List MRow) (row : MRow) (column : MColumn)
    (hrow : row ∈ validList)
    (hr : row.removed = false) (hp : row.pending = false) (ha : row.aggregate = false)
    (hc : column ∈ columns)
    (hhas : hasFieldRules editRules column.field = true)
    (hfail : (validCellRules registry "all" (getFieldRules editRules column.field)
        (getCellValue row column.field)).errorRules ≠ []) :
    ∃ e, (row.id ++ ":" ++ column.id, e)
      ∈ (beginValidateWalk registry editRules columns true validList).validErrMaps := by
  unfold beginValidateWalk
  rcases List.append_of_mem hrow with ⟨l1, l2, rfl⟩
  rw [List.foldl_append, List.foldl_cons]
  exact keyMem_foldl_rows registry editRules columns true l2 _
    (handleVaild_records registry editRules columns _ row column hr hp ha hc hhas hfail)

/-- **C3.** Fail-fast versus exhaustive mode.  Suppose the first row of
the working set trips the shared flag (its `handleVaild` step from the
clean session state sets `validRuleErr`).  Then in fail-fast mode
(`validate`) the whole walk equals that single first-row step: no cell
of any later-visited row is evaluated (every visited cell belongs to
the first row), and the session's error map is non-empty, holds at
most one entry, and every entry belongs to the first failing row.  In
exhaustive mode (`fullValidate`) on the same input, every non-skipped
row's failing eligible cell — in particular those of every later
failing row — is keyed in the resulting error map. -/
theorem C3_failfast_vs_exhaustive (registry : Registry) (editRules : EditRules)
    (columns : List MColumn) (r1 : MRow) (rest : List MRow)
    (htrip : (handleVaild registry editRules columns false ({} : WalkState) r1).validRuleErr = true) :
    beginValidateWalk registry editRules columns false (r1 :: rest)
      = handleVaild registry editRules columns false ({} : WalkState) r1
    ∧ (∀ p ∈ (beginValidateWalk registry editRules columns false (r1 :: rest)).visited, p.1 = r1.id)
    ∧ (beginValidateWalk registry editRules columns false (r1 :: rest)).validErrMaps ≠ []
    ∧ (beginValidateWalk registry editRules columns false (r1 :: rest)).validErrMaps.length ≤ 1
    ∧ (∀ kv ∈ (beginValidateWalk registry editRules columns false (r1 :: rest)).validErrMaps,
        (kv.2).row = r1.id)
    ∧ (∀ row ∈ r1 :: rest, row.removed = false → row.pending = false → row.aggregate = false →
        ∀ column ∈ columns, hasFieldRules editRules column.field = true →
        (validCellRules registry "all" (getFieldRules editRules column.field)
          (getCellValue row column.field)).errorRules ≠ [] →
        ∃ e, (row.id ++ ":" ++ column.id, e)
          ∈ (beginValidateWalk registry editRules columns true (r1 :: rest)).validErrMaps) := by
  have heq : beginValidateWalk registry editRules columns false (r1 :: rest)
      = handleVaild registry editRules columns false ({} : WalkState) r1 := by
    unfold beginValidateWalk
    rw [List.foldl_cons]
    exact foldl_handleVaild_flag_noop registry editRules columns rest _ htrip
  obtain ⟨hvis, hrowp, _, hne, hlen⟩ :=
    failFastInv_handleVaild registry editRules columns r1 (failFastInv_init r1.id)
  refine ⟨heq, ?_, ?_, ?_, ?_, ?_⟩
  · rw [heq]
    exact hvis
  · rw [heq]
    exact hne htrip
  · rw [heq]
    exact hlen
  · rw [heq]
    exact hrowp
  · intro row hrow hr hp ha column hcol hhas hfail
    exact beginValidateWalk_records registry editRules columns (r1 :: rest) row column
      hrow hr hp ha hcol hhas hfail

/-- Witness for C3 at a concrete input with two failing rows (`r1` and
`r2`, each with an empty required cell): in fail-fast mode only `r1`'s
cell is visited and the error map has at most one entry; in exhaustive
mode `r2`'s failure is keyed too. -/
theorem C3_failfast_vs_exhaustive_witness :
    (handleVaild (fun _ => none) [("a", [{ required := true, content := "req" }])]
        [{ id := "c1", field := "a" }] false ({} : WalkState)
        { id := "r1", cells := [("a", JVal.vNull)] }).validRuleErr = true
    ∧ (∀ p ∈ (beginValidateWalk (fun _ => none) [("a", [{ required := true, content := "req" }])]
          [{ id := "c1", field := "a" }] false
          [{ id := "r1", cells := [("a", JVal.vNull)] },
           { id := "r2", cells := [("a", JVal.vNull)] }]).visited, p.1 = "r1")
    ∧ (beginValidateWalk (fun _ => none) [("a", [{ required := true, content := "req" }])]
          [{ id := "c1", field := "a" }] false
          [{ id := "r1", cells := [("a", JVal.vNull)] },
           { id := "r2", cells := [("a", JVal.vNull)] }]).validErrMaps.length ≤ 1
    ∧ (∃ e, ("r2:c1", e) ∈ (beginValidateWalk (fun _ => none)
          [("a", [{ required := true, content := "req" }])]
          [{ id := "c1", field := "a" }] true
          [{ id := "r1", cells := [("a", JVal.vNull)] },
           { id := "r2", cells := [("a", JVal.vNull)] }]).validErrMaps) := by
  refine ⟨by decide, ?_, ?_, ?_⟩
  · exact (C3_failfast_vs_exhaustive (fun _ => none)
      [("a", [{ required := true, content := "req" }])] [{ id := "c1", field := "a" }]
      { id := "r1", cells := [("a", JVal.vNull)] }
      [{ id := "r2", cells := [("a", JVal.vNull)] }] (by decide)).2.1
  · exact (C3_failfast_vs_exhaustive (fun _ => none)
      [("a", [{ required := true, content := "req" }])] [{ id := "c1", field := "a" }]
      { id := "r1", cells := [("a", JVal.vNull)] }
      [{ id := "r2", cells := [("a", JVal.vNull)] }] (by decide)).2.2.2.1
  · exact (C3_failfast_vs_exhaustive (fun _ => none)
      [("a", [{ required := true, content := "req" }])] [{ id := "c1", field := "a" }]
      { id := "r1", cells := [("a", JVal.vNull)] }
      [{ id := "r2", cells := [("a", JVal.vNull)] }] (by decide)).2.2.2.2.2
      { id := "r2", cells := [("a", JVal.vNull)] }
      (List.mem_cons_of_mem _ (List.mem_cons_self _ _)) rfl rfl rfl
      { id := "c1", field := "a" } (List.mem_cons_self _ _) rfl (List.cons_ne_nil _ _)

end VxeValidator
